import Mathlib

/-!
Verification development for the exercise validation and code execution
contract of the Flask/FastAPI tutorial web application.

The data model is embedded from `src/frontend/src/types/codeEditor.ts`
(`CodeExecutionResult`, `ExerciseValidationResult`, `TestResult`,
`CodeEditorState`).  Client-side state transitions are embedded from the
`CodeEditor` component (`executeCode`, `validateExercise`, `resetCode`),
from `ExerciseDisplay.tsx` (`handleSubmit`, `handleReset`), from
`ExerciseHints.tsx` (progressive hint revelation), and from
`services/api.ts` (`setupInterceptors`, `logout`, `isAuthenticated`,
`getTokens`).  The server-side execution service is not part of this
repository; where a property depends on it, the relevant operation is
modelled from the specification and marked as such in its doc comment.
-/

/-- Structured values exchanged with the execution service.  The
TypeScript fields `expected` and `actual` have type `any`; a small
JSON-like value type stands in for them. -/
inductive JValue
  | null
  | bool (b : Bool)
  | num (n : Int)
  | str (s : String)
  deriving DecidableEq, Repr

/-- `CodeExecutionResult` from `types/codeEditor.ts`.  The numeric
`execution_time` and the optional `memory_usage` are embedded as
rationals. -/
structure CodeExecutionResult where
  success : Bool
  output : String
  error : Option String
  execution_time : Rat
  memory_usage : Option Rat
  deriving DecidableEq, Repr

/-- `TestResult` from `types/codeEditor.ts`. -/
structure TestResult where
  name : String
  passed : Bool
  expected : JValue
  actual : JValue
  error : Option String
  deriving DecidableEq, Repr

/-- `ExerciseValidationResult` from `types/codeEditor.ts`. -/
structure ExerciseValidationResult where
  success : Bool
  passed_tests : Nat
  total_tests : Nat
  test_results : List TestResult
  score : Nat
  feedback : String
  deriving DecidableEq, Repr

/-- `CodeEditorState` from `types/codeEditor.ts`. -/
structure CodeEditorState where
  code : String
  isExecuting : Bool
  isValidating : Bool
  executionResult : Option CodeExecutionResult
  validationResult : Option ExerciseValidationResult
  showHints : Bool
  hints : List String
  deriving DecidableEq, Repr

/-- The fallback `CodeExecutionResult` built in the `catch` branch of
`executeCode` in the `CodeEditor` component: the thrown error is folded
into the `error` field, `output` is empty and `execution_time` is `0`.
The argument `msg` is the message text of the caught error. -/
def executeErrorResult (msg : String) : CodeExecutionResult :=
  { success := false
  , output := ""
  , error := some msg
  , execution_time := 0
  , memory_usage := none }

/-- One full run of `executeCode` from the `CodeEditor` component:
set `isExecuting` and clear the previous result, store either the API
result or the fallback error result, and clear `isExecuting` in the
`finally` block.  The outcome of the awaited API call is passed in as
an `Except`. -/
def executeCodeRun (s : CodeEditorState)
    (api : Except String CodeExecutionResult) : CodeEditorState :=
  let started := { s with isExecuting := true, executionResult := none }
  let settled :=
    match api with
    | .ok r => { started with executionResult := some r }
    | .error msg => { started with executionResult := some (executeErrorResult msg) }
  { settled with isExecuting := false }

/-- The fallback `ExerciseValidationResult` built in the `catch` branch
of `validateExercise` in the `CodeEditor` component. -/
def validateErrorResult (msg : String) : ExerciseValidationResult :=
  { success := false
  , passed_tests := 0
  , total_tests := 0
  , test_results := []
  , score := 0
  , feedback := msg }

/-- One full run of `validateExercise` from the `CodeEditor` component.
When no `exerciseId` is provided the function returns early and the
state is untouched; otherwise the validating flag is set, the API
outcome or the fallback error result is stored, and the flag is cleared
in the `finally` block. -/
def validateExerciseRun (exerciseId : Option String) (s : CodeEditorState)
    (api : Except String ExerciseValidationResult) : CodeEditorState :=
  match exerciseId with
  | none => s
  | some _ =>
    let started := { s with isValidating := true, validationResult := none }
    let settled :=
      match api with
      | .ok r => { started with validationResult := some r }
      | .error msg => { started with validationResult := some (validateErrorResult msg) }
    { settled with isValidating := false }

/-- `resetCode` from the `CodeEditor` component: restore the starter
code and drop both results, leaving every other field of the state
untouched. -/
def resetCode (initialCode : String) (s : CodeEditorState) : CodeEditorState :=
  { s with
    code := initialCode
  , executionResult := none
  , validationResult := none }

/-- The authenticated user as used by `ExerciseDisplay.tsx` (only its
presence matters to the submit guard). -/
structure User where
  id : String
  email : String
  username : String
  deriving DecidableEq, Repr

/-- The local state of `ExerciseDisplay.tsx`: code, submission flag,
validation result, hints toggle, attempt counter and elapsed seconds. -/
structure ExerciseDisplayState where
  code : String
  isSubmitting : Bool
  validationResult : Option ExerciseValidationResult
  showHints : Bool
  attempts : Nat
  timeSpent : Nat
  deriving DecidableEq, Repr

/-- The fallback result built in the `catch` branch of `handleSubmit`
in `ExerciseDisplay.tsx`. -/
def submitErrorResult : ExerciseValidationResult :=
  { success := false
  , passed_tests := 0
  , total_tests := 0
  , test_results := []
  , score := 0
  , feedback := "Failed to validate exercise. Please try again." }

/-- The JavaScript `String.prototype.trim` used by `handleSubmit` and
the submit button: drop whitespace from both ends. -/
def jsTrim (s : String) : String :=
  String.mk
    (((s.data.dropWhile Char.isWhitespace).reverse.dropWhile
      Char.isWhitespace).reverse)

/-- The guard at the top of `handleSubmit`: the handler returns early
when there is no user or the code is empty after trimming. -/
def handleSubmitGuard (user : Option User) (code : String) : Bool :=
  user.isNone || jsTrim code == ""

/-- The request `handleSubmit` sends to `apiClient.validateExercise`,
or `none` when the guard makes the handler return before any API call
is issued. -/
def handleSubmitRequest (user : Option User) (exerciseId code : String) :
    Option (String × String) :=
  if handleSubmitGuard user code then none else some (exerciseId, code)

/-- The body of `handleSubmit` past the guard: the submitting flag is
set and the attempt counter incremented, the API outcome or the
fallback error result is stored, and the flag is cleared in the
`finally` block. -/
def handleSubmitBody (s : ExerciseDisplayState)
    (api : Except String ExerciseValidationResult) : ExerciseDisplayState :=
  let started := { s with isSubmitting := true, attempts := s.attempts + 1 }
  let settled :=
    match api with
    | .ok r => { started with validationResult := some r }
    | .error _ => { started with validationResult := some submitErrorResult }
  { settled with isSubmitting := false }

/-- One full run of `handleSubmit` from `ExerciseDisplay.tsx`. -/
def handleSubmitRun (user : Option User) (s : ExerciseDisplayState)
    (api : Except String ExerciseValidationResult) : ExerciseDisplayState :=
  if handleSubmitGuard user s.code then s else handleSubmitBody s api

/-- The `disabled` condition of the submit button in
`ExerciseDisplay.tsx`: `isSubmitting || !code.trim()`. -/
def submitDisabled (isSubmitting : Bool) (code : String) : Bool :=
  isSubmitting || jsTrim code == ""

/-- `handleReset` from `ExerciseDisplay.tsx`: restore the starter code
and drop the validation result; nothing else changes. -/
def handleReset (starterCode : String) (s : ExerciseDisplayState) :
    ExerciseDisplayState :=
  { s with code := starterCode, validationResult := none }

/-- The effect in `ExerciseHints.tsx` that recomputes the number of
automatically revealed hints:
`Math.min(Math.floor(attempts / 2), availableHints.length)`. -/
def hintsToReveal (attempts : Nat) (availableHints : List String) : Nat :=
  min (attempts / 2) availableHints.length

/-- `revealNextHint` from `ExerciseHints.tsx`: increment the revealed
count only while it is below the number of available hints. -/
def revealNextHint (revealed : Nat) (availableHints : List String) : Nat :=
  if revealed < availableHints.length then revealed + 1 else revealed

/-- The gating of the reveal-next-hint button in `ExerciseHints.tsx`:
the button block is rendered only while hints remain, and the clickable
button appears only once `attempts >= (revealedHints + 1) * 2`. -/
def nextHintButtonShown (attempts revealed : Nat)
    (availableHints : List String) : Bool :=
  decide (revealed < availableHints.length) &&
    decide ((revealed + 1) * 2 ≤ attempts)

/-- `AuthTokens` from `types/auth.ts` as used by `services/api.ts`. -/
structure AuthTokens where
  access_token : String
  refresh_token : String
  deriving DecidableEq, Repr

/-- The token-holding state of the `ApiClient` class in
`services/api.ts`: the in-memory `tokens` field and the
`localStorage` copy under the `auth_tokens` key. -/
structure ApiClientState where
  tokens : Option AuthTokens
  storedTokens : Option AuthTokens
  deriving DecidableEq, Repr

/-- `clearTokens` from `services/api.ts`: drop the in-memory tokens and
remove the stored copy. -/
def clearTokens (s : ApiClientState) : ApiClientState :=
  { s with tokens := none, storedTokens := none }

/-- `logout` from `services/api.ts`: the server call runs inside a
`try` whose `finally` block always clears the tokens; the outcome of
the server call (success or thrown error) is propagated unchanged. -/
def logout (s : ApiClientState) (serverCall : Except String Unit) :
    ApiClientState × Except String Unit :=
  (clearTokens s, serverCall)

/-- `isAuthenticated` from `services/api.ts`:
`!!this.tokens?.access_token`. -/
def isAuthenticated (s : ApiClientState) : Bool :=
  match s.tokens with
  | some t => t.access_token != ""
  | none => false

/-- `getTokens` from `services/api.ts`. -/
def getTokens (s : ApiClientState) : Option AuthTokens :=
  s.tokens

/-- An Axios request as seen by the response interceptor in
`services/api.ts`: only the `_retry` marker on `error.config` drives
the control flow. -/
structure ApiRequest where
  url : String
  retryFlag : Bool
  deriving DecidableEq, Repr

/-- The failed response handed to the interceptor:
`error.response?.status` (absent for network-level failures). -/
structure ApiFailure where
  status : Option Nat
  deriving DecidableEq, Repr

/-- What the response interceptor in `setupInterceptors` resolves to for
a failed request. -/
inductive InterceptorOutcome
  | reissue (req : ApiRequest)
  | rejectOriginal
  | rejectRefreshFailure
  deriving DecidableEq, Repr

/-- The response error interceptor from `setupInterceptors` in
`services/api.ts`: on a 401 response whose request is not yet marked
with `_retry`, mark it, refresh the token and reissue the original
request; if the refresh throws, clear tokens and reject with the
refresh error; in every other case reject with the original error.
`refreshSucceeds` is the outcome of the awaited `refreshToken` call. -/
def respondToError (req : ApiRequest) (e : ApiFailure)
    (refreshSucceeds : Bool) : InterceptorOutcome :=
  if e.status == some 401 && !req.retryFlag then
    let marked := { req with retryFlag := true }
    if refreshSucceeds then .reissue marked else .rejectRefreshFailure
  else .rejectOriginal

/-- Whether the interceptor outcome re-sends the request. -/
def isReissue : InterceptorOutcome → Bool
  | .reissue _ => true
  | _ => false

/-- The request re-sent by the interceptor, when there is one. -/
def reissuedRequest : InterceptorOutcome → Option ApiRequest
  | .reissue r => some r
  | _ => none

/-- Caller-visible request errors of the execution service boundary
(spec section 7). -/
inductive RequestError
  | invalidRequest
  | notFound
  deriving DecidableEq, Repr

/-- Modelled from the spec: the request-validation boundary of the
execution service is not part of this repository.  Spec section 4.3:
`code` must be non-empty and under a maximum length; a violation fails
with `InvalidRequest` and never reaches the Execution Driver. -/
def checkExecutionRequest (code : String) (maxLen : Nat) :
    Except RequestError Unit :=
  if code = "" then .error .invalidRequest
  else if maxLen < code.length then .error .invalidRequest
  else .ok ()

/-- Modelled from the spec: behaviour of one candidate program inside
the sandbox, which this repository does not implement.  The program
either terminates normally with its standard output, or raises with
whatever partial output it flushed plus an error text. -/
inductive RunOutcome
  | finished (output : String)
  | fault (partialOutput : String) (errMsg : String)
  deriving DecidableEq, Repr

/-- Modelled from the spec: a candidate program abstracted by its
outcome and wall-clock running time; `runTime = none` means the program
never finishes on its own. -/
structure CandidateProgram where
  outcome : RunOutcome
  runTime : Option Rat
  deriving DecidableEq, Repr

/-- The timeout marker placed in `error` when a run hits the configured
ceiling (spec section 4.1, `TimeoutExceeded`). -/
def timeoutMarker : String := "Execution timed out"

/-- The `ExecutionResult` reported for a run that exceeded the timeout:
`success = false`, `error` set to the timeout marker, and
`execution_time` equal to the ceiling, not an estimate. -/
def timeoutResult (timeout : Rat) : CodeExecutionResult :=
  { success := false
  , output := ""
  , error := some timeoutMarker
  , execution_time := timeout
  , memory_usage := none }

/-- Whether the program runs longer than the configured timeout. -/
def runsLongerThan (p : CandidateProgram) (timeout : Rat) : Bool :=
  match p.runTime with
  | none => true
  | some t => decide (timeout < t)

/-- Modelled from the spec: the Execution Driver (spec section 4.1) is
not part of this repository.  A run that does not finish within the
timeout is reported with `timeoutResult`; a run that finishes in time
yields `success = true` with its output and no error, and a run that
raises yields `success = false` with the captured error text and the
partial output. -/
def execute (p : CandidateProgram) (timeout : Rat) : CodeExecutionResult :=
  match p.runTime with
  | none => timeoutResult timeout
  | some t =>
    if timeout < t then timeoutResult timeout
    else
      match p.outcome with
      | .finished out =>
        { success := true
        , output := out
        , error := none
        , execution_time := t
        , memory_usage := none }
      | .fault partialOut msg =>
        { success := false
        , output := partialOut
        , error := some msg
        , execution_time := t
        , memory_usage := none }

/-- The invariant of spec section 3 on `ExecutionResult`: exactly one
of success-with-no-error or failure-with-populated-error holds. -/
def exactlyOneOutcome (r : CodeExecutionResult) : Bool :=
  xor (r.success && r.error.isNone) (!r.success && r.error.isSome)

/-- Modelled from the spec: a `TestCase` definition served by the
content collaborator (spec section 3), which this repository does not
implement. -/
structure TestCase where
  name : String
  expected : JValue
  deriving DecidableEq, Repr

/-- Modelled from the spec: running one test case of the harness (spec
section 4.2).  The candidate is abstracted by what it produces for each
test case: a value, or an error when the candidate code raised during
that case.  A raised case gets `passed = false` with the fault text in
`error`; a produced value is compared structurally with `expected`. -/
def runTestCase (candidate : TestCase → Except String JValue)
    (tc : TestCase) : TestResult :=
  match candidate tc with
  | .ok v =>
    { name := tc.name
    , passed := decide (v = tc.expected)
    , expected := tc.expected
    , actual := v
    , error := none }
  | .error msg =>
    { name := tc.name
    , passed := false
    , expected := tc.expected
    , actual := JValue.null
    , error := some msg }

/-- Modelled from the spec: the conventional integer score,
`round(100 * passed_tests / total_tests)`, and `0` when there are no
tests (spec section 3).  Rounding half up is implemented with natural
division. -/
def scoreOf (passed total : Nat) : Nat :=
  if total = 0 then 0 else (200 * passed + total) / (2 * total)

/-- Modelled from the spec: deterministic feedback text derived from
the pass ratio (spec section 4.2). -/
def feedbackOf (passed total : Nat) : String :=
  if total = 0 then "No tests configured for this exercise"
  else if passed = total then "All tests passed. Great work."
  else toString (total - passed) ++ " of " ++ toString total ++
    " tests are still failing."

/-- Modelled from the spec: the test harness aggregation (spec section
4.2), which this repository does not implement.  Every test case is run
in definition order; `success = (passed_tests == total_tests) &&
total_tests > 0`, so an exercise with zero test cases is never
successful. -/
def validate (candidate : TestCase → Except String JValue)
    (tcs : List TestCase) : ExerciseValidationResult :=
  let results := tcs.map (runTestCase candidate)
  let total := results.length
  let passed := (results.filter (fun r => r.passed)).length
  { success := passed == total && decide (0 < total)
  , passed_tests := passed
  , total_tests := total
  , test_results := results
  , score := scoreOf passed total
  , feedback := feedbackOf passed total }

lemma scoreOf_eq_round (k N : Nat) (hN : N ≠ 0) :
    (scoreOf k N : ℤ) = round ((100 * (k : ℚ)) / (N : ℚ)) := by
  have hN0 : (N : ℚ) ≠ 0 := Nat.cast_ne_zero.mpr hN
  rw [round_eq]
  have hrw : (100 * (k : ℚ)) / (N : ℚ) + 1 / 2 =
      ((200 * k + N : ℕ) : ℚ) / ((2 * N : ℕ) : ℚ) := by
    push_cast
    field_simp
    ring
  rw [hrw, Rat.floor_natCast_div_natCast]
  simp [scoreOf, hN, Int.natCast_div]

/-- Claim C9: resetting the code editor restores the starter code and
clears both results while leaving the hints list, the hints toggle and
both in-progress flags unchanged; the exercise-level reset restores the
starter code and clears the validation result while leaving the
attempts counter, the elapsed time, the hints toggle and the submitting
flag unchanged. -/
theorem reset_restores_and_preserves (init starter : String)
    (s : CodeEditorState) (d : ExerciseDisplayState) :
    (resetCode init s).code = init ∧
    (resetCode init s).executionResult = none ∧
    (resetCode init s).validationResult = none ∧
    (resetCode init s).hints = s.hints ∧
    (resetCode init s).showHints = s.showHints ∧
    (resetCode init s).isExecuting = s.isExecuting ∧
    (resetCode init s).isValidating = s.isValidating ∧
    (handleReset starter d).code = starter ∧
    (handleReset starter d).validationResult = none ∧
    (handleReset starter d).attempts = d.attempts ∧
    (handleReset starter d).timeSpent = d.timeSpent ∧
    (handleReset starter d).showHints = d.showHints ∧
    (handleReset starter d).isSubmitting = d.isSubmitting :=
  ⟨rfl, rfl, rfl, rfl, rfl, rfl, rfl, rfl, rfl, rfl, rfl, rfl, rfl⟩

/-- Claim C10: after `logout` completes, whether the server-side logout
request succeeds or throws, the tokens are cleared, `isAuthenticated`
returns `false` and `getTokens` returns `none`; the outcome of the
server call is propagated unchanged. -/
theorem logout_clears_tokens (s : ApiClientState)
    (serverCall : Except String Unit) :
    isAuthenticated (logout s serverCall).1 = false ∧
    getTokens (logout s serverCall).1 = none ∧
    (logout s serverCall).1.storedTokens = none ∧
    (logout s serverCall).2 = serverCall :=
  ⟨rfl, rfl, rfl, rfl⟩

/-- Claim C3: every execute, validate or submit attempt ends with a
stored structured result and the in-progress flag cleared, on both the
success and the error exit path; when the API call throws, the stored
result is the fallback with `success = false` and a populated error or
feedback, with zero counts and score on the validation paths. -/
theorem attempt_always_returns_result (s : CodeEditorState)
    (d : ExerciseDisplayState) (eid : String)
    (apiE : Except String CodeExecutionResult)
    (apiV apiS : Except String ExerciseValidationResult) (msg : String) :
    (executeCodeRun s apiE).isExecuting = false ∧
    (executeCodeRun s apiE).executionResult.isSome = true ∧
    (executeCodeRun s (.error msg)).executionResult =
      some (executeErrorResult msg) ∧
    (executeErrorResult msg).success = false ∧
    (executeErrorResult msg).error = some msg ∧
    (validateExerciseRun (some eid) s apiV).isValidating = false ∧
    (validateExerciseRun (some eid) s apiV).validationResult.isSome = true ∧
    (validateExerciseRun (some eid) s (.error msg)).validationResult =
      some (validateErrorResult msg) ∧
    (validateErrorResult msg).success = false ∧
    (validateErrorResult msg).passed_tests = 0 ∧
    (validateErrorResult msg).total_tests = 0 ∧
    (validateErrorResult msg).score = 0 ∧
    (validateErrorResult msg).feedback = msg ∧
    (handleSubmitBody d apiS).isSubmitting = false ∧
    (handleSubmitBody d apiS).validationResult.isSome = true ∧
    (handleSubmitBody d (.error msg)).validationResult =
      some submitErrorResult ∧
    submitErrorResult.success = false ∧
    submitErrorResult.passed_tests = 0 ∧
    submitErrorResult.total_tests = 0 ∧
    submitErrorResult.score = 0 := by
  cases apiE <;> cases apiV <;> cases apiS <;>
    simp [executeCodeRun, validateExerciseRun, handleSubmitBody,
      executeErrorResult, validateErrorResult, submitErrorResult]

/-- Claim C4: every `ExecutionResult` produced by a run attempt, by the
modelled Execution Driver or by the client-side fallback, satisfies the
dichotomy: exactly one of success-with-no-error or
failure-with-populated-error holds; `success = false` never occurs with
`error` absent. -/
theorem execution_result_dichotomy (p : CandidateProgram) (timeout : Rat)
    (msg : String) :
    exactlyOneOutcome (execute p timeout) = true ∧
    exactlyOneOutcome (executeErrorResult msg) = true := by
  constructor
  · unfold execute
    cases p.runTime with
    | none => rfl
    | some t =>
      by_cases h : timeout < t
      · simp [h, timeoutResult, exactlyOneOutcome]
      · cases p.outcome <;> simp [h, exactlyOneOutcome]
  · rfl

/-- Claim C5: a failed response is re-sent exactly when it is a 401 on
a request not yet marked `_retry` and the token refresh succeeds; the
re-sent request carries the `_retry` marker, so a second failure is
never re-sent again; every other failure rejects with the original
error. -/
theorem retry_policy_single_401 (req : ApiRequest) (e e2 : ApiFailure)
    (rf rf2 : Bool) :
    (isReissue (respondToError req e rf) =
      (e.status == some 401 && !req.retryFlag && rf)) ∧
    ((e.status == some 401 && !req.retryFlag) = false →
      respondToError req e rf = .rejectOriginal) ∧
    (∀ r, reissuedRequest (respondToError req e rf) = some r →
      r.retryFlag = true ∧ respondToError r e2 rf2 = .rejectOriginal) := by
  cases hc : e.status == some 401 <;> cases hr : req.retryFlag <;>
    cases rf <;>
    simp_all [respondToError, isReissue, reissuedRequest]

/-- Claim C6: for code that is empty or whitespace-only, `handleSubmit`
returns before issuing any API call, the submit button is disabled, and
the modelled request boundary rejects empty code with `InvalidRequest`,
so the request never reaches the Execution Driver. -/
theorem empty_code_blocked (user : Option User) (eid code : String)
    (b : Bool) (maxLen : Nat) (h : jsTrim code = "") :
    handleSubmitRequest user eid code = none ∧
    submitDisabled b code = true ∧
    (code = "" → checkExecutionRequest code maxLen = .error .invalidRequest) := by
  refine ⟨?_, ?_, ?_⟩
  · simp [handleSubmitRequest, handleSubmitGuard, h]
  · simp [submitDisabled, h]
  · intro hc
    simp [checkExecutionRequest, hc]

/-- Witness for C6 at the whitespace-only code `" "` with a logged-in
user. -/
theorem empty_code_blocked_witness :
    handleSubmitRequest (some { id := "u1", email := "e", username := "n" })
      "ex1" " " = none ∧
    submitDisabled false " " = true ∧
    (" " = "" → checkExecutionRequest " " 10000 =
      .error RequestError.invalidRequest) :=
  empty_code_blocked _ _ _ _ _ (by decide)

/-- Claim C7: hint revelation is a pure function of the attempt count
and the hint list: the automatically revealed count is
`min(attempts / 2, length)`, never exceeds the number of available
hints, the manual reveal step keeps the count within bounds, and the
reveal-next button appears only once `attempts >= (revealed + 1) * 2`. -/
theorem hint_revelation (a r : Nat) (hs : List String) :
    hintsToReveal a hs = min (a / 2) hs.length ∧
    hintsToReveal a hs ≤ hs.length ∧
    (r ≤ hs.length → revealNextHint r hs ≤ hs.length) ∧
    (nextHintButtonShown a r hs = true → (r + 1) * 2 ≤ a) := by
  refine ⟨rfl, Nat.min_le_right _ _, ?_, ?_⟩
  · intro hr
    unfold revealNextHint
    split <;> omega
  · intro hb
    simp [nextHintButtonShown] at hb
    exact hb.2

/-- Witness for C7 at four attempts, one revealed hint and three
available hints. -/
theorem hint_revelation_witness :
    revealNextHint 1 ["a", "b", "c"] ≤ (["a", "b", "c"] : List String).length ∧
    (1 + 1) * 2 ≤ 4 :=
  ⟨(hint_revelation 4 1 ["a", "b", "c"]).2.2.1 (by decide),
   (hint_revelation 4 1 ["a", "b", "c"]).2.2.2 (by decide)⟩

/-- Claim C8: a run that exceeds the configured timeout is reported
with `success = false`, the timeout marker in `error`, and an
`execution_time` exactly equal to the configured ceiling. -/
theorem execute_timeout_ceiling (p : CandidateProgram) (timeout : Rat)
    (h : runsLongerThan p timeout = true) :
    (execute p timeout).success = false ∧
    (execute p timeout).error = some timeoutMarker ∧
    (execute p timeout).execution_time = timeout := by
  unfold execute
  unfold runsLongerThan at h
  cases hp : p.runTime with
  | none => simp [timeoutResult]
  | some t =>
    rw [hp] at h
    simp only [decide_eq_true_eq] at h
    simp [h, timeoutResult]

/-- Witness for C8 at a program that never finishes, with a two-second
ceiling. -/
theorem execute_timeout_ceiling_witness :
    (execute { outcome := .finished "x", runTime := none } 2).success = false ∧
    (execute { outcome := .finished "x", runTime := none } 2).error =
      some timeoutMarker ∧
    (execute { outcome := .finished "x", runTime := none } 2).execution_time = 2 :=
  execute_timeout_ceiling _ _ (by decide)

/-- Witness for C5: the request marked by a first 401 retry is never
re-sent again, and a non-401 failure rejects with the original error. -/
theorem retry_policy_single_401_witness :
    (({ url := "u", retryFlag := true } : ApiRequest).retryFlag = true ∧
      respondToError { url := "u", retryFlag := true }
        { status := some 500 } false = .rejectOriginal) ∧
    respondToError { url := "u", retryFlag := false }
      { status := some 404 } true = .rejectOriginal :=
  ⟨(retry_policy_single_401 { url := "u", retryFlag := false }
      { status := some 401 } { status := some 500 } true false).2.2
      { url := "u", retryFlag := true } rfl,
   (retry_policy_single_401 { url := "u", retryFlag := false }
      { status := some 404 } { status := some 404 } true true).2.1 (by decide)⟩

/-- Claim C1: for an exercise with `N` test cases of which the
candidate passes exactly `k`, the modelled `validate` returns
`passed_tests = k`, `total_tests = N`, `test_results` of length `N` in
definition order, and `success = true` exactly when `k = N` and
`N > 0`; with zero test cases the result never has `success = true`. -/
theorem validate_aggregation (candidate : TestCase → Except String JValue)
    (tcs : List TestCase) :
    (validate candidate tcs).passed_tests =
      (tcs.filter (fun tc => (runTestCase candidate tc).passed)).length ∧
    (validate candidate tcs).total_tests = tcs.length ∧
    (validate candidate tcs).test_results = tcs.map (runTestCase candidate) ∧
    ((validate candidate tcs).success = true ↔
      ((tcs.filter (fun tc => (runTestCase candidate tc).passed)).length =
        tcs.length ∧ 0 < tcs.length)) ∧
    (tcs = [] → (validate candidate tcs).success = false) := by
  have hfilter : ((tcs.map (runTestCase candidate)).filter
      (fun r => r.passed)).length =
      (tcs.filter (fun tc => (runTestCase candidate tc).passed)).length := by
    rw [List.filter_map]
    simp [Function.comp_def]
  refine ⟨?_, ?_, ?_, ?_, ?_⟩
  · simpa [validate] using hfilter
  · simp [validate]
  · simp [validate]
  · simp [validate, hfilter]
  · intro h
    subst h
    simp [validate]

/-- Witness for C1 at the exercise with zero test cases. -/
theorem validate_aggregation_witness :
    (validate (fun tc => .ok tc.expected) []).success = false :=
  (validate_aggregation (fun tc => .ok tc.expected) []).2.2.2.2 rfl

/-- Claim C2: the score of every modelled validation result is the
integer `round(100 * passed_tests / total_tests)` when
`total_tests > 0`, and `0` when `total_tests = 0`. -/
theorem validate_score_formula (candidate : TestCase → Except String JValue)
    (tcs : List TestCase) :
    ((validate candidate tcs).score : ℤ) =
      if (validate candidate tcs).total_tests = 0 then 0
      else round ((100 * ((validate candidate tcs).passed_tests : ℚ)) /
        ((validate candidate tcs).total_tests : ℚ)) := by
  have hdef : (validate candidate tcs).score =
      scoreOf (validate candidate tcs).passed_tests
        (validate candidate tcs).total_tests := rfl
  by_cases h : (validate candidate tcs).total_tests = 0
  · simp [h, hdef, scoreOf]
  · rw [if_neg h, hdef, scoreOf_eq_round _ _ h]
